import Mathlib

set_option maxRecDepth 8192

namespace VoiceAgent

/-!
Shallow embedding of the voice-agent backend (src/backend): the JSON value
model shared by the function dispatcher (main.py), the calculator tool
(tools/calculator.py) and the Plaid tool (tools/plaid_tool.py).

Python numbers are modelled as a tagged sum of `Int` (Python int) and `Rat`
(Python float, idealised as an exact rational: no claim in this development
depends on IEEE rounding).
-/

inductive PyNum where
  | int (i : Int)
  | float (q : Rat)
deriving DecidableEq

inductive Json where
  | null
  | bool (b : Bool)
  | num (n : PyNum)
  | str (s : String)
  | arr (elems : List Json)
  | obj (fields : List (String × Json))

mutual

def jsonDecEq : (a b : Json) → Decidable (a = b)
  | .null, .null => isTrue rfl
  | .null, .bool _ => isFalse (fun h => Json.noConfusion h)
  | .null, .num _ => isFalse (fun h => Json.noConfusion h)
  | .null, .str _ => isFalse (fun h => Json.noConfusion h)
  | .null, .arr _ => isFalse (fun h => Json.noConfusion h)
  | .null, .obj _ => isFalse (fun h => Json.noConfusion h)
  | .bool _, .null => isFalse (fun h => Json.noConfusion h)
  | .bool a, .bool b =>
    if h : a = b then isTrue (h ▸ rfl) else isFalse (fun k => h (Json.bool.inj k))
  | .bool _, .num _ => isFalse (fun h => Json.noConfusion h)
  | .bool _, .str _ => isFalse (fun h => Json.noConfusion h)
  | .bool _, .arr _ => isFalse (fun h => Json.noConfusion h)
  | .bool _, .obj _ => isFalse (fun h => Json.noConfusion h)
  | .num _, .null => isFalse (fun h => Json.noConfusion h)
  | .num _, .bool _ => isFalse (fun h => Json.noConfusion h)
  | .num a, .num b =>
    if h : a = b then isTrue (h ▸ rfl) else isFalse (fun k => h (Json.num.inj k))
  | .num _, .str _ => isFalse (fun h => Json.noConfusion h)
  | .num _, .arr _ => isFalse (fun h => Json.noConfusion h)
  | .num _, .obj _ => isFalse (fun h => Json.noConfusion h)
  | .str _, .null => isFalse (fun h => Json.noConfusion h)
  | .str _, .bool _ => isFalse (fun h => Json.noConfusion h)
  | .str _, .num _ => isFalse (fun h => Json.noConfusion h)
  | .str a, .str b =>
    if h : a = b then isTrue (h ▸ rfl) else isFalse (fun k => h (Json.str.inj k))
  | .str _, .arr _ => isFalse (fun h => Json.noConfusion h)
  | .str _, .obj _ => isFalse (fun h => Json.noConfusion h)
  | .arr _, .null => isFalse (fun h => Json.noConfusion h)
  | .arr _, .bool _ => isFalse (fun h => Json.noConfusion h)
  | .arr _, .num _ => isFalse (fun h => Json.noConfusion h)
  | .arr _, .str _ => isFalse (fun h => Json.noConfusion h)
  | .arr xs, .arr ys =>
    match jsonListDecEq xs ys with
    | isTrue h => isTrue (h ▸ rfl)
    | isFalse h => isFalse (fun k => h (Json.arr.inj k))
  | .arr _, .obj _ => isFalse (fun h => Json.noConfusion h)
  | .obj _, .null => isFalse (fun h => Json.noConfusion h)
  | .obj _, .bool _ => isFalse (fun h => Json.noConfusion h)
  | .obj _, .num _ => isFalse (fun h => Json.noConfusion h)
  | .obj _, .str _ => isFalse (fun h => Json.noConfusion h)
  | .obj _, .arr _ => isFalse (fun h => Json.noConfusion h)
  | .obj xs, .obj ys =>
    match jsonObjDecEq xs ys with
    | isTrue h => isTrue (h ▸ rfl)
    | isFalse h => isFalse (fun k => h (Json.obj.inj k))

def jsonListDecEq : (a b : List Json) → Decidable (a = b)
  | [], [] => isTrue rfl
  | [], _ :: _ => isFalse (fun h => List.noConfusion h)
  | _ :: _, [] => isFalse (fun h => List.noConfusion h)
  | x :: xs, y :: ys =>
    match jsonDecEq x y with
    | isFalse h => isFalse (fun k => h (List.cons.inj k).1)
    | isTrue h1 =>
      match jsonListDecEq xs ys with
      | isTrue h2 => isTrue (h1 ▸ h2 ▸ rfl)
      | isFalse h2 => isFalse (fun k => h2 (List.cons.inj k).2)

def jsonObjDecEq : (a b : List (String × Json)) → Decidable (a = b)
  | [], [] => isTrue rfl
  | [], _ :: _ => isFalse (fun h => List.noConfusion h)
  | _ :: _, [] => isFalse (fun h => List.noConfusion h)
  | (k1, v1) :: xs, (k2, v2) :: ys =>
    if hk : k1 = k2 then
      match jsonDecEq v1 v2 with
      | isFalse h =>
        isFalse (fun k => h (congrArg Prod.snd (List.cons.inj k).1))
      | isTrue h1 =>
        match jsonObjDecEq xs ys with
        | isTrue h2 => isTrue (hk ▸ h1 ▸ h2 ▸ rfl)
        | isFalse h2 => isFalse (fun k => h2 (List.cons.inj k).2)
    else
      isFalse (fun k => hk (congrArg Prod.fst (List.cons.inj k).1))

end

instance : DecidableEq Json := jsonDecEq

/-- Opening brace character (written via its code point, `0x7b`). -/
def obrace : Char := Char.ofNat 123

/-- Closing brace character (code point `0x7d`). -/
def cbrace : Char := Char.ofNat 125

/-- Python truthiness of a JSON-decoded value (`bool(x)`). -/
def pyTruthy : Json → Bool
  | .null => false
  | .bool b => b
  | .num (.int i) => decide (i ≠ 0)
  | .num (.float q) => decide (q ≠ 0)
  | .str s => !s.data.isEmpty
  | .arr l => !l.isEmpty
  | .obj l => !l.isEmpty

/-- Value of key `k` in a Python dict built from an association list
(last assignment wins, as in `dict` construction). -/
def lookLast (kvs : List (String × Json)) (k : String) : Option Json :=
  kvs.foldl (fun acc p => if p.1 = k then some p.2 else acc) none

/-- `d.get(k)` on a dict: value of the key, or Python `None` (here `Json.null`). -/
def dictGetD (kvs : List (String × Json)) (k : String) : Json :=
  (lookLast kvs k).getD Json.null

/-! ### Serialisation: model of Python `json.dumps` (default options). -/

def hexDigit (n : Nat) : Char :=
  if n < 10 then Char.ofNat (48 + n) else Char.ofNat (87 + n)

def uEsc (n : Nat) : List Char :=
  ['\\', 'u', hexDigit ((n / 4096) % 16), hexDigit ((n / 256) % 16),
   hexDigit ((n / 16) % 16), hexDigit (n % 16)]

/-- Escape one character as Python `json.dumps` does (`ensure_ascii=True`). -/
def escChar (c : Char) : List Char :=
  if c = '"' then ['\\', '"']
  else if c = '\\' then ['\\', '\\']
  else if c = '\n' then ['\\', 'n']
  else if c = '\t' then ['\\', 't']
  else if c = '\r' then ['\\', 'r']
  else if c.toNat = 8 then ['\\', 'b']
  else if c.toNat = 12 then ['\\', 'f']
  else if c.toNat < 32 then uEsc c.toNat
  else if c.toNat < 127 then [c]
  else if c.toNat < 65536 then uEsc c.toNat
  else
    let n := c.toNat - 65536
    uEsc (55296 + n / 1024) ++ uEsc (56320 + n % 1024)

def jStrDump (s : String) : List Char :=
  '"' :: (s.data.map escChar).flatten ++ ['"']

/-- Decimal expansion `q = m / 10^k` when one exists with `k ≤ 17`. -/
def decExpand (q : Rat) : Option (Int × Nat) :=
  (List.range 18).findSome? fun k =>
    let m := q * (10 : Rat) ^ k
    if m.den = 1 then some (m.num, k) else none

/-- Rendering of a Python float, faithful for terminating decimals
(`repr(20.0) = "20.0"`, `repr(0.5) = "0.5"`); no claim serialises any other
float. -/
def floatRepr (q : Rat) : String :=
  match decExpand q with
  | some (m, 0) => toString m ++ ".0"
  | some (m, Nat.succ k) =>
    let sign := if m < 0 then "-" else ""
    let a := m.natAbs
    let ipart := toString (a / 10 ^ (k + 1))
    let fs := toString (a % 10 ^ (k + 1))
    let fpart := String.mk (List.replicate (k + 1 - fs.length) '0') ++ fs
    sign ++ ipart ++ "." ++ fpart
  | none => toString q.num ++ "/" ++ toString q.den

def numDump : PyNum → List Char
  | .int i => (toString i).data
  | .float q => (floatRepr q).data

mutual

/-- Model of Python `json.dumps` with default separators `", "` and `": "`. -/
def jDump : Json → List Char
  | .null => 'n' :: 'u' :: 'l' :: 'l' :: []
  | .bool true => 't' :: 'r' :: 'u' :: 'e' :: []
  | .bool false => 'f' :: 'a' :: 'l' :: 's' :: 'e' :: []
  | .num n => numDump n
  | .str s => jStrDump s
  | .arr es => '[' :: jDumpItems es ++ [']']
  | .obj kvs => obrace :: jDumpFields kvs ++ [cbrace]

def jDumpItems : List Json → List Char
  | [] => []
  | [x] => jDump x
  | x :: y :: rest => jDump x ++ ',' :: ' ' :: jDumpItems (y :: rest)

def jDumpFields : List (String × Json) → List Char
  | [] => []
  | [(k, v)] => jStrDump k ++ ':' :: ' ' :: jDump v
  | (k, v) :: p :: rest =>
    jStrDump k ++ ':' :: ' ' :: jDump v ++ ',' :: ' ' :: jDumpFields (p :: rest)

end

def jsonDumps (j : Json) : String := String.mk (jDump j)

/-! ### Parsing: model of Python `json.loads`. -/

def isWsChar (c : Char) : Bool :=
  c = ' ' || c = '\t' || c = '\n' || c = '\r'

def skipWs : List Char → List Char
  | [] => []
  | c :: rest => if isWsChar c then skipWs rest else c :: rest

def hexVal (c : Char) : Option Nat :=
  if '0' ≤ c ∧ c ≤ '9' then some (c.toNat - 48)
  else if 'a' ≤ c ∧ c ≤ 'f' then some (c.toNat - 87)
  else if 'A' ≤ c ∧ c ≤ 'F' then some (c.toNat - 55)
  else none

def digitsToNat (ds : List Char) : Nat :=
  ds.foldl (fun a c => a * 10 + (c.toNat - 48)) 0

def ratPow10 (z : Int) : Rat :=
  if 0 ≤ z then ((10 : Rat) ^ z.toNat) else 1 / (10 : Rat) ^ (-z).toNat

/-- Scan the body of a JSON string literal (after the opening quote). -/
def jStrChars : Nat → List Char → Except String (List Char × List Char)
  | 0, _ => .error "out of fuel"
  | _, [] => .error "unterminated string"
  | fuel + 1, c :: rest =>
    if c = '"' then .ok ([], rest)
    else if c = '\\' then
      match rest with
      | [] => .error "bad escape"
      | e :: rest2 =>
        let push (ch : Char) (rem : List Char) :=
          match jStrChars fuel rem with
          | .ok (cs, r) => .ok (ch :: cs, r)
          | .error m => .error m
        if e = '"' then push '"' rest2
        else if e = '\\' then push '\\' rest2
        else if e = '/' then push '/' rest2
        else if e = 'b' then push (Char.ofNat 8) rest2
        else if e = 'f' then push (Char.ofNat 12) rest2
        else if e = 'n' then push '\n' rest2
        else if e = 'r' then push '\r' rest2
        else if e = 't' then push '\t' rest2
        else if e = 'u' then
          match rest2 with
          | a :: b :: c2 :: d :: rest3 =>
            match hexVal a, hexVal b, hexVal c2, hexVal d with
            | some x, some y, some z, some w =>
              push (Char.ofNat (x * 4096 + y * 256 + z * 16 + w)) rest3
            | _, _, _, _ => .error "bad unicode escape"
          | _ => .error "bad unicode escape"
        else .error "bad escape"
    else
      match jStrChars fuel rest with
      | .ok (cs, r) => .ok (c :: cs, r)
      | .error m => .error m

/-- Insert a key into an object under construction: Python dict semantics
(first occurrence keeps its position, later assignment overwrites the value). -/
def objInsert (kvs : List (String × Json)) (k : String) (v : Json) :
    List (String × Json) :=
  if kvs.any (fun p => p.1 = k) then
    kvs.map (fun p => if p.1 = k then (k, v) else p)
  else kvs ++ [(k, v)]

/-- Parse a JSON number; `input` starts at an optional minus sign. -/
def jNum (input : List Char) : Except String (Json × List Char) :=
  let (neg, rest0) :=
    match input with
    | c :: r => if c = '-' then (true, r) else (false, input)
    | [] => (false, input)
  let (ints, rest1) := rest0.span Char.isDigit
  if ints.isEmpty then .error "invalid number"
  else
    let (fracs, rest2) :=
      match rest1 with
      | c :: r =>
        if c = '.' then
          let (ds, r2) := r.span Char.isDigit
          (some ds, r2)
        else (none, rest1)
      | [] => (none, rest1)
    if fracs = some [] then .error "invalid number"
    else
      let (expo, rest3) :=
        match rest2 with
        | c :: r =>
          if c = 'e' ∨ c = 'E' then
            let (esign, r1) :=
              match r with
              | s :: r2 => if s = '+' then (1, r2) else if s = '-' then (-1, r2) else (1, r)
              | [] => (1, r)
            let (eds, r2) := r1.span Char.isDigit
            if eds.isEmpty then (none, rest2)
            else (some (esign * (digitsToNat eds : Int)), r2)
          else (none, rest2)
        | [] => (none, rest2)
      let sgn : Int := if neg then -1 else 1
      match fracs, expo with
      | none, none => .ok (.num (.int (sgn * digitsToNat ints)), rest2)
      | _, _ =>
        let fr := (fracs.getD [])
        let mant : Int := sgn * (digitsToNat (ints ++ fr) : Int)
        let e : Int := (expo.getD 0) - fr.length
        .ok (.num (.float ((mant : Rat) * ratPow10 e)), rest3)

mutual

/-- Model of `json.loads`: parse one JSON value (fuel-bounded recursion). -/
def jVal : Nat → List Char → Except String (Json × List Char)
  | 0, _ => .error "out of fuel"
  | fuel + 1, input =>
    match skipWs input with
    | [] => .error "empty input"
    | 'n' :: 'u' :: 'l' :: 'l' :: rest => .ok (.null, rest)
    | 't' :: 'r' :: 'u' :: 'e' :: rest => .ok (.bool true, rest)
    | 'f' :: 'a' :: 'l' :: 's' :: 'e' :: rest => .ok (.bool false, rest)
    | c :: rest =>
      if c = '"' then
        match jStrChars (rest.length + 1) rest with
        | .ok (cs, r) => .ok (.str (String.mk cs), r)
        | .error m => .error m
      else if c = '[' then
        match skipWs rest with
        | ']' :: r => .ok (.arr [], r)
        | other =>
          match jArrItems fuel other with
          | .ok (es, r) => .ok (.arr es, r)
          | .error m => .error m
      else if c = obrace then
        match skipWs rest with
        | r0 =>
          match r0 with
          | d :: r =>
            if d = cbrace then .ok (.obj [], r)
            else
              match jObjFields fuel [] r0 with
              | .ok (kvs, r2) => .ok (.obj kvs, r2)
              | .error m => .error m
          | [] => .error "unterminated object"
      else jNum (c :: rest)

/-- Parse the items of a non-empty JSON array (positioned at the first item). -/
def jArrItems : Nat → List Char → Except String (List Json × List Char)
  | 0, _ => .error "out of fuel"
  | fuel + 1, input =>
    match jVal fuel input with
    | .error m => .error m
    | .ok (v, rest) =>
      match skipWs rest with
      | ',' :: r =>
        match jArrItems fuel r with
        | .ok (es, r2) => .ok (v :: es, r2)
        | .error m => .error m
      | ']' :: r => .ok ([v], r)
      | _ => .error "expected comma or close bracket"

/-- Parse the fields of a non-empty JSON object (positioned at the first key). -/
def jObjFields (fuel : Nat) (acc : List (String × Json)) (input : List Char) :
    Except String (List (String × Json) × List Char) :=
  match fuel with
  | 0 => .error "out of fuel"
  | fuel + 1 =>
    match skipWs input with
    | k0 :: rest =>
      if k0 = '"' then
        match jStrChars (rest.length + 1) rest with
        | .error m => .error m
        | .ok (kcs, r1) =>
          match skipWs r1 with
          | ':' :: r2 =>
            match jVal fuel r2 with
            | .error m => .error m
            | .ok (v, r3) =>
              let acc2 := objInsert acc (String.mk kcs) v
              match skipWs r3 with
              | ',' :: r4 => jObjFields fuel acc2 r4
              | d :: r4 =>
                if d = cbrace then .ok (acc2, r4)
                else .error "expected comma or close brace"
              | [] => .error "unterminated object"
          | _ => .error "expected colon"
      else .error "expected key"
    | [] => .error "unterminated object"

end

/-- Model of Python `json.loads` on a string. -/
def jsonLoads (s : String) : Except String Json :=
  match jVal (2 * s.data.length + 4) s.data with
  | .error m => .error m
  | .ok (v, rest) =>
    match skipWs rest with
    | [] => .ok v
    | _ => .error "extra data"

/-!
## Calculator (src/backend/tools/calculator.py)

Python runtime numbers reachable inside `_safe_eval_node`: ints, floats and
bools (`isinstance(True, int)` holds in Python, so boolean constants pass the
numeric check on line 28 of calculator.py). Floats are idealised as exact
rationals.
-/

inductive PyVal where
  | vint (i : Int)
  | vbool (b : Bool)
  | vfloat (q : Rat)
deriving DecidableEq

/-- Numeric value of a Python number (bools count as 0/1, as in Python). -/
def PyVal.toRat : PyVal → Rat
  | .vint i => (i : Rat)
  | .vbool b => if b then 1 else 0
  | .vfloat q => q

def PyVal.isF : PyVal → Bool
  | .vfloat _ => true
  | _ => false

/-- Integer value of an int/bool (never applied to floats below). -/
def PyVal.toI : PyVal → Int
  | .vint i => i
  | .vbool b => if b then 1 else 0
  | .vfloat _ => 0

/-- Python `+` on numbers: ints stay ints, floats contaminate. -/
def pyAdd (a b : PyVal) : PyVal :=
  if a.isF || b.isF then .vfloat (a.toRat + b.toRat) else .vint (a.toI + b.toI)

def pySub (a b : PyVal) : PyVal :=
  if a.isF || b.isF then .vfloat (a.toRat - b.toRat) else .vint (a.toI - b.toI)

def pyMul (a b : PyVal) : PyVal :=
  if a.isF || b.isF then .vfloat (a.toRat * b.toRat) else .vint (a.toI * b.toI)

/-- Python `/` (true division): always a float; raises on a zero divisor. -/
def pyDiv (a b : PyVal) : Except String PyVal :=
  if b.toRat = 0 then
    .error (if a.isF || b.isF then "float division by zero" else "division by zero")
  else .ok (.vfloat (a.toRat / b.toRat))

/-- Python `%`: `a - floor(a/b) * b` (result has the divisor's sign). -/
def pyMod (a b : PyVal) : Except String PyVal :=
  if b.toRat = 0 then
    .error (if a.isF || b.isF then "float modulo" else "integer division or modulo by zero")
  else if a.isF || b.isF then
    .ok (.vfloat (a.toRat - (⌊a.toRat / b.toRat⌋ : Int) * b.toRat))
  else .ok (.vint (Int.fmod a.toI b.toI))

/-- Python `**`. A fractional exponent yields an irrational (or complex) value
that the rational model cannot represent; that case is mapped to an error and
no claim depends on it. -/
def pyPow (a b : PyVal) : Except String PyVal :=
  if a.isF || b.isF then
    let q := a.toRat
    let e := b.toRat
    if e.den = 1 then
      if q = 0 ∧ e.num < 0 then .error "0.0 cannot be raised to a negative power"
      else .ok (.vfloat (q ^ e.num))
    else .error "irrational power not representable in the model"
  else
    let m := a.toI
    let e := b.toI
    if 0 ≤ e then .ok (.vint (m ^ e.toNat))
    else if m = 0 then .error "0.0 cannot be raised to a negative power"
    else .ok (.vfloat ((m : Rat) ^ e))

/-- `operator.pos` (`+x`): bools become ints. -/
def pyPos : PyVal → PyVal
  | .vbool b => .vint (if b then 1 else 0)
  | v => v

/-- `operator.neg` (`-x`). -/
def pyNeg : PyVal → PyVal
  | .vbool b => .vint (if b then -1 else 0)
  | .vint i => .vint (-i)
  | .vfloat q => .vfloat (-q)

inductive PyConst where
  | cint (i : Int)
  | cfloat (q : Rat)
  | cbool (b : Bool)
  | cstr (s : String)
  | cnone
deriving DecidableEq

/-- `isinstance(node.value, (int, float))`: true for ints, floats and bools. -/
def PyConst.isNumeric : PyConst → Bool
  | .cint _ => true
  | .cfloat _ => true
  | .cbool _ => true
  | _ => false

def PyConst.val : PyConst → PyVal
  | .cint i => .vint i
  | .cfloat q => .vfloat q
  | .cbool b => .vbool b
  | .cstr _ => .vint 0
  | .cnone => .vint 0

inductive BinT where
  | add | sub | mult | div | mod | pow
deriving DecidableEq

inductive UnT where
  | uadd | usub
deriving DecidableEq

/-- Python `ast` expression nodes as far as `_safe_eval_node` inspects them.
`call` and `attribute` carry no payload because the evaluator rejects them
without looking at their children; `other` covers every remaining node kind
(comparisons, disallowed operators such as `//` and `<<`, lambdas, ...). -/
inductive Ast where
  | expression (body : Ast)
  | const (c : PyConst)
  | unaryOp (op : UnT) (operand : Ast)
  | binOp (op : BinT) (l r : Ast)
  | name (id : String)
  | call
  | attrAccess
  | other
deriving DecidableEq

def unApply : UnT → PyVal → PyVal
  | .uadd => pyPos
  | .usub => pyNeg

def binApply : BinT → PyVal → PyVal → Except String PyVal
  | .add, a, b => .ok (pyAdd a b)
  | .sub, a, b => .ok (pySub a b)
  | .mult, a, b => .ok (pyMul a b)
  | .div, a, b => pyDiv a b
  | .mod, a, b => pyMod a b
  | .pow, a, b => pyPow a b

/-- Model of `_safe_eval_node`; errors are the raised exception's message. -/
def safeEval : Ast → Nat → Except String PyVal
  | t, depth =>
    if depth > 20 then .error "Expression too complex"
    else
      match t with
      | .expression body => safeEval body (depth + 1)
      | .const c =>
        if c.isNumeric then .ok c.val else .error "Only numbers are allowed"
      | .unaryOp op e =>
        match safeEval e (depth + 1) with
        | .ok v => .ok (unApply op v)
        | .error m => .error m
      | .binOp op l r =>
        match safeEval l (depth + 1) with
        | .error m => .error m
        | .ok lv =>
          match safeEval r (depth + 1) with
          | .error m => .error m
          | .ok rv =>
            if op = .pow ∧ (1000000 < |lv.toRat| ∨ 12 < |rv.toRat|) then
              .error "Exponent too large"
            else binApply op lv rv
      | .name _ => .error "Unsupported expression"
      | .call => .error "Unsupported expression"
      | .attrAccess => .error "Unsupported expression"
      | .other => .error "Unsupported expression"

/-- `_safe_eval_node` instrumented with the list of `(base, exponent)` pairs
at which evaluation reaches an exponentiation with both operands evaluated.
Its first component agrees with `safeEval` (proved below). -/
def safeEvalT : Ast → Nat → Except String PyVal × List (PyVal × PyVal)
  | t, depth =>
    if depth > 20 then (.error "Expression too complex", [])
    else
      match t with
      | .expression body => safeEvalT body (depth + 1)
      | .const c =>
        (if c.isNumeric then .ok c.val else .error "Only numbers are allowed", [])
      | .unaryOp op e =>
        match safeEvalT e (depth + 1) with
        | (.ok v, tr) => (.ok (unApply op v), tr)
        | (.error m, tr) => (.error m, tr)
      | .binOp op l r =>
        match safeEvalT l (depth + 1) with
        | (.error m, ltr) => (.error m, ltr)
        | (.ok lv, ltr) =>
          match safeEvalT r (depth + 1) with
          | (.error m, rtr) => (.error m, ltr ++ rtr)
          | (.ok rv, rtr) =>
            if op = .pow then
              let tr := ltr ++ rtr ++ [(lv, rv)]
              if 1000000 < |lv.toRat| ∨ 12 < |rv.toRat| then
                (.error "Exponent too large", tr)
              else (binApply op lv rv, tr)
            else (binApply op lv rv, ltr ++ rtr)
      | .name _ => (.error "Unsupported expression", [])
      | .call => (.error "Unsupported expression", [])
      | .attrAccess => (.error "Unsupported expression", [])
      | .other => (.error "Unsupported expression", [])

/-- Reference evaluator: exact rational arithmetic on the same node language,
with no depth guard and no exponent guard, also collecting reached power
pairs. Used as the specification side for C5. -/
def stdEvalT : Ast → Except String PyVal × List (PyVal × PyVal)
  | .expression body => stdEvalT body
  | .const c =>
    (if c.isNumeric then .ok c.val else .error "Only numbers are allowed", [])
  | .unaryOp op e =>
    match stdEvalT e with
    | (.ok v, tr) => (.ok (unApply op v), tr)
    | (.error m, tr) => (.error m, tr)
  | .binOp op l r =>
    match stdEvalT l with
    | (.error m, ltr) => (.error m, ltr)
    | (.ok lv, ltr) =>
      match stdEvalT r with
      | (.error m, rtr) => (.error m, ltr ++ rtr)
      | (.ok rv, rtr) =>
        if op = .pow then (binApply op lv rv, ltr ++ rtr ++ [(lv, rv)])
        else (binApply op lv rv, ltr ++ rtr)
  | .name _ => (.error "Unsupported expression", [])
  | .call => (.error "Unsupported expression", [])
  | .attrAccess => (.error "Unsupported expression", [])
  | .other => (.error "Unsupported expression", [])

def errJson (m : String) : Json := Json.obj [("error", Json.str m)]

def pyValJson : PyVal → Json
  | .vint i => .num (.int i)
  | .vbool b => .bool b
  | .vfloat q => .num (.float q)

def resJson (v : PyVal) : Json := Json.obj [("result", pyValJson v)]

/-- `if isinstance(result, float) and result == 0: result = 0.0` — in the
rational model this is the identity on its domain. -/
def normZero : PyVal → PyVal
  | .vfloat q => if q = 0 then .vfloat 0 else .vfloat q
  | v => v

/-- `calculate` after parsing: evaluate the `ast.Expression` tree at depth 0,
normalise `-0.0`, and convert any raised exception to `{"error": str(e)}`. -/
def calcOnAst (body : Ast) : Json :=
  match safeEval (Ast.expression body) 0 with
  | .ok v => resJson (normZero v)
  | .error m => errJson m

/-- Python `str.strip()` whitespace (ASCII portion). -/
def isPySpace (c : Char) : Bool :=
  c = ' ' || c = '\t' || c = '\n' || c = '\r' || c.toNat = 11 || c.toNat = 12

def pyStrip (l : List Char) : List Char :=
  ((l.dropWhile isPySpace).reverse.dropWhile isPySpace).reverse

/-- `expr.replace("^", "**")`. -/
def replaceCaret (l : List Char) : List Char :=
  l.flatMap fun c => if c = '^' then ['*', '*'] else [c]

/-- Numeric literal token (`123`, `2.`, `.5`, `2e3`, `1.5E-2`). -/
def pyNumTok (l : List Char) : Option (PyConst × List Char) :=
  let (ds, r1) := l.span Char.isDigit
  let (fr, r2) :=
    match r1 with
    | c :: r =>
      if c = '.' then
        let (fs, r3) := r.span Char.isDigit
        (some fs, r3)
      else (none, r1)
    | [] => (none, r1)
  if ds.isEmpty ∧ (fr.getD []).isEmpty then none
  else
    let (ex, r3) :=
      match r2 with
      | c :: r =>
        if c = 'e' ∨ c = 'E' then
          let (esign, rr) :=
            match r with
            | s :: r2' =>
              if s = '+' then ((1 : Int), r2')
              else if s = '-' then (-1, r2')
              else (1, r)
            | [] => (1, r)
          let (eds, rr2) := rr.span Char.isDigit
          if eds.isEmpty then (none, r2) else (some (esign * (digitsToNat eds : Int)), rr2)
        else (none, r2)
      | [] => (none, r2)
    match fr, ex with
    | none, none => some (.cint (digitsToNat ds), r2)
    | _, _ =>
      let frd := fr.getD []
      let mant : Int := (digitsToNat (ds ++ frd) : Int)
      some (.cfloat ((mant : Rat) * ratPow10 ((ex.getD 0) - frd.length)), r3)

def pSkip (l : List Char) : List Char := l.dropWhile (fun c => c = ' ' || c = '\t')

mutual

/-- Additive level of the arithmetic grammar (model of `ast.parse` restricted
to the numeric fragment `calculate` is meant for; on anything outside the
fragment the parse fails, standing in for either a `SyntaxError` or a tree
that `_safe_eval_node` rejects — claims about such inputs are stated at the
`Ast` level via `calcOnAst`). -/
def pExpr : Nat → List Char → Option (Ast × List Char)
  | 0, _ => none
  | fuel + 1, l =>
    match pTerm fuel l with
    | none => none
    | some (a, r) => pExprRest fuel a r

def pExprRest : Nat → Ast → List Char → Option (Ast × List Char)
  | 0, _, _ => none
  | fuel + 1, acc, l =>
    match pSkip l with
    | '+' :: r =>
      match pTerm fuel r with
      | some (b, r2) => pExprRest fuel (.binOp .add acc b) r2
      | none => none
    | '-' :: r =>
      match pTerm fuel r with
      | some (b, r2) => pExprRest fuel (.binOp .sub acc b) r2
      | none => none
    | rest => some (acc, rest)

def pTerm : Nat → List Char → Option (Ast × List Char)
  | 0, _ => none
  | fuel + 1, l =>
    match pFactor fuel l with
    | none => none
    | some (a, r) => pTermRest fuel a r

def pTermRest : Nat → Ast → List Char → Option (Ast × List Char)
  | 0, _, _ => none
  | fuel + 1, acc, l =>
    match pSkip l with
    | '*' :: '*' :: _ => some (acc, pSkip l)
    | '*' :: r =>
      match pFactor fuel r with
      | some (b, r2) => pTermRest fuel (.binOp .mult acc b) r2
      | none => none
    | '/' :: r =>
      match pFactor fuel r with
      | some (b, r2) => pTermRest fuel (.binOp .div acc b) r2
      | none => none
    | '%' :: r =>
      match pFactor fuel r with
      | some (b, r2) => pTermRest fuel (.binOp .mod acc b) r2
      | none => none
    | rest => some (acc, rest)

/-- Unary level (`factor` in the Python grammar): `-x`, `+x`, then power. -/
def pFactor : Nat → List Char → Option (Ast × List Char)
  | 0, _ => none
  | fuel + 1, l =>
    match pSkip l with
    | '+' :: r =>
      match pFactor fuel r with
      | some (a, r2) => some (.unaryOp .uadd a, r2)
      | none => none
    | '-' :: r =>
      match pFactor fuel r with
      | some (a, r2) => some (.unaryOp .usub a, r2)
      | none => none
    | rest => pPower fuel rest

/-- `power := atom ['**' factor]` (right-associative, unary exponents). -/
def pPower : Nat → List Char → Option (Ast × List Char)
  | 0, _ => none
  | fuel + 1, l =>
    match pAtom fuel l with
    | none => none
    | some (a, r) =>
      match pSkip r with
      | '*' :: '*' :: r2 =>
        match pFactor fuel r2 with
        | some (e, r3) => some (.binOp .pow a e, r3)
        | none => none
      | _ => some (a, pSkip r)

def pAtom : Nat → List Char → Option (Ast × List Char)
  | 0, _ => none
  | fuel + 1, l =>
    match pSkip l with
    | '(' :: r =>
      match pExpr fuel r with
      | some (a, r2) =>
        match pSkip r2 with
        | ')' :: r3 => some (a, r3)
        | _ => none
      | none => none
    | rest =>
      match pyNumTok rest with
      | some (c, r) => some (.const c, r)
      | none => none

end

def parseArith (l : List Char) : Option Ast :=
  match pExpr (5 * l.length + 10) l with
  | some (a, r) => if (pSkip r).isEmpty then some a else none
  | none => none

/-- Model of `calculate` on a string argument (tools/calculator.py lines
48-67). The `SyntaxError` message is approximated; claims only use the
numeric fragment or the pre-parse behaviour. -/
def calculate (s : String) : Json :=
  let t0 := pyStrip s.data
  if t0.isEmpty then errJson "Empty expression"
  else
    match parseArith (replaceCaret t0) with
    | some body => calcOnAst body
    | none => errJson "invalid syntax (<unknown>, line 1)"

/-!
## Function dispatcher (src/backend/main.py, `_handle_function_call_request`)

A capability is modelled by its two invocation modes: keyword invocation
(`f(**arguments)`) and single-positional invocation (`f(expr)`, the fallback
on line 81). A Python exception is a flag (is it a `TypeError`, the only
class the inner `except` on line 79 catches) plus its `str(e)` message.
-/

structure PyErr where
  isTE : Bool
  msg : String
deriving DecidableEq

structure Capability where
  kw : List (String × Json) → Except PyErr Json
  pos : Json → Except PyErr Json

/-- One entry of `decoded["functions"]`, with its three fields as read by
`function_call.get(...)`: absent `id`/`name` give Python `None` (`Json.null`);
for `arguments` the key's absence matters (line 71 defaults it to `"{}"`),
so it stays an `Option`. -/
structure FunctionCall where
  id : Json
  name : Json
  args : Option Json
deriving DecidableEq

/-- `_create_function_call_response`: `content` is `json.dumps(result)`. -/
structure Reply where
  id : Json
  name : Json
  content : String
deriving DecidableEq

/-- An exception escaping one loop iteration, with the `func_id`/`func_name`
locals in scope at the raise (used by the outer handler, lines 87-93). -/
structure EntryErr where
  id : Json
  name : Json
  msg : String
deriving DecidableEq

/-- Python type name of a JSON-decoded value (for exception messages). -/
def pyTypeName : Json → String
  | .null => "NoneType"
  | .bool _ => "bool"
  | .num (.int _) => "int"
  | .num (.float _) => "float"
  | .str _ => "str"
  | .arr _ => "list"
  | .obj _ => "dict"

/-- `str(x)` / f-string rendering of a JSON-decoded value. Exact for strings,
`None`, bools and ints (the cases any claim exercises); containers are
approximated by their JSON form. -/
def pyFStr : Json → String
  | .null => "None"
  | .bool true => "True"
  | .bool false => "False"
  | .num n => String.mk (numDump n)
  | .str s => s
  | j => jsonDumps j

/-- `function_call.get("arguments", "{}")`. -/
def rawArguments (fc : FunctionCall) : Json := fc.args.getD (Json.str "\x7b\x7d")

/-- `json.loads` applied to the raw field: a non-string raises `TypeError`. -/
def pyJsonLoadsVal : Json → Except String Json
  | .str s => jsonLoads s
  | j => .error ("the JSON object must be str, bytes or bytearray, not " ++ pyTypeName j)

/-- Lines 70-73: parse `arguments`, substituting `{}` on any failure. -/
def parsedArguments (fc : FunctionCall) : Json :=
  match pyJsonLoadsVal (rawArguments fc) with
  | .ok v => v
  | .error _ => Json.obj []

/-- `func_name in FUNCTION_MAP`: only string names can be registry keys. -/
def lookupName (fmap : String → Option Capability) : Json → Option Capability
  | .str s => fmap s
  | _ => none

/-- `FUNCTION_MAP[func_name](**arguments)`: `**` of a non-mapping raises
`TypeError` before the capability runs. -/
def kwInvoke (cap : Capability) : Json → Except PyErr Json
  | .obj kvs => cap.kw kvs
  | j => .error ⟨true, "argument after ** must be a mapping, not " ++ pyTypeName j⟩

/-- Line 80: `arguments.get("expression") or arguments.get("query") or
arguments.get("input")` — Python `or` chaining: the first truthy value wins;
if none is truthy the last `get`'s value is kept. `.get` on a non-dict raises
`AttributeError`. -/
def fallbackValue : Json → Except PyErr Json
  | .obj kvs =>
    let v1 := dictGetD kvs "expression"
    if pyTruthy v1 then .ok v1
    else
      let v2 := dictGetD kvs "query"
      if pyTruthy v2 then .ok v2
      else .ok (dictGetD kvs "input")
  | j => .error ⟨false, "'" ++ pyTypeName j ++ "' object has no attribute 'get'"⟩

/-- One iteration of the dispatch loop (lines 67-86) after the arguments are
parsed: an `.error` is an exception escaping to the outer handler. Only a
`TypeError` from the keyword invocation is caught locally; the fallback
invocation is unprotected. -/
def dispatchEntry (fmap : String → Option Capability) (fcId fcName args : Json) :
    Except EntryErr Reply :=
  match lookupName fmap fcName with
  | some cap =>
    match kwInvoke cap args with
    | .ok result => .ok ⟨fcId, fcName, jsonDumps result⟩
    | .error e =>
      if e.isTE then
        match fallbackValue args with
        | .ok expr =>
          match cap.pos expr with
          | .ok result => .ok ⟨fcId, fcName, jsonDumps result⟩
          | .error e2 => .error ⟨fcId, fcName, e2.msg⟩
        | .error e2 => .error ⟨fcId, fcName, e2.msg⟩
      else .error ⟨fcId, fcName, e.msg⟩
  | none =>
    .ok ⟨fcId, fcName, jsonDumps (errJson ("Unknown function: " ++ pyFStr fcName))⟩

/-- One full iteration of the dispatch loop on an entry. -/
def handleEntry (fmap : String → Option Capability) (fc : FunctionCall) :
    Except EntryErr Reply :=
  dispatchEntry fmap fc.id fc.name (parsedArguments fc)

/-- The outer handler's best-effort reply (lines 87-93). -/
def failureReply (id name : Json) (msg : String) : Reply :=
  ⟨id, name, jsonDumps (errJson ("Function call failed: " ++ msg))⟩

/-- The dispatch loop: each reply is sent immediately; an exception escaping
an iteration is caught by the try wrapped around the WHOLE loop, one error
reply is sent, and the function returns — later entries are not processed. -/
def processEntries (fmap : String → Option Capability) :
    List FunctionCall → List Reply
  | [] => []
  | fc :: rest =>
    match handleEntry fmap fc with
    | .ok reply => reply :: processEntries fmap rest
    | .error e => [failureReply e.id e.name e.msg]

def replyToJson (r : Reply) : Json :=
  .obj [("type", .str "FunctionCallResponse"), ("id", r.id), ("name", r.name),
        ("content", .str r.content)]

def decodeEntry : Json → Option FunctionCall
  | .obj kvs => some ⟨dictGetD kvs "id", dictGetD kvs "name", lookLast kvs "arguments"⟩
  | _ => none

def decodeEntries (es : List Json) : Option (List FunctionCall) :=
  es.mapM decodeEntry

/-- `_handle_function_call_request` on a decoded dict: the texts sent over the
socket, in order. Requests whose `functions` is not a list of dicts raise
inside the outer try (a best-effort reply with stale/placeholder locals);
that path is outside the modelled scope and no claim touches it. -/
def handleFunctionCallRequest (fmap : String → Option Capability)
    (decoded : List (String × Json)) : List String :=
  match (lookLast decoded "functions").getD (Json.arr []) with
  | .arr es =>
    match decodeEntries es with
    | some fcs => (processEntries fmap fcs).map (fun r => jsonDumps (replyToJson r))
    | none => []
  | _ => []

/-- `audio_receiver` on one textual frame (main.py lines 100-106): parse
failures and non-`FunctionCallRequest` messages are silently discarded; a
non-dict decode makes `.get` raise `AttributeError`, swallowed by the same
`except`. Returns the outbound texts sent in response. -/
def receiveText (fmap : String → Option Capability) (msg : String) : List String :=
  match jsonLoads msg with
  | .ok (.obj kvs) =>
    match lookLast kvs "type" with
    | some (.str t) =>
      if t = "FunctionCallRequest" then handleFunctionCallRequest fmap kvs else []
    | _ => []
  | _ => []

/-!
## Plaid tool (src/backend/tools/plaid_tool.py)

The process environment, the wall clock and the Plaid/network + filesystem
effects are external inputs, bundled in `PlaidEnv`; dates are day numbers
(proleptic Gregorian, `civilToDays`). The balances and transactions branches
beyond the pure control flow (network fetch, artifact write) are oracles.
-/

structure PlaidEnv where
  importOk : Bool
  clientId : Option String
  secret : Option String
  tokenDiscover : Option String
  tokenHuntington : Option String
  tokenAlly : Option String
  tokenPnc : Option String
  today : Int
  balancesOutcome : List (String × String) → String
  txnsOutcome : List (String × String) → Int → Int → Json

/-- Truthiness of an `os.getenv` result. -/
def strTruthy : Option String → Bool
  | some s => !s.isEmpty
  | none => false

/-- `_init_plaid_client` (lines 129-154); the returned client itself has no
observable state for any claim. -/
def initPlaidClient (env : PlaidEnv) : Except String Unit :=
  if !env.importOk then
    .error "Missing dependency 'plaid-python'. Install with: pip install plaid-python"
  else if !(strTruthy env.clientId) || !(strTruthy env.secret) then
    .error "PLAID_CLIENT_ID and PLAID_SECRET must be set in environment"
  else .ok ()

def pyLowerStr (s : String) : String := String.mk (s.data.map Char.toLower)

def discoverSyn : List String := ["discover", "discover credit card"]
def huntingtonSyn : List String := ["huntington", "huntington national bank"]
def allySyn : List String := ["ally", "ally bank", "ally money market", "ally money market account"]
def pncSyn : List String := ["pnc", "pnc bank", "pnc checking", "pnc savings"]

/-- `_normalize_account_name` (lines 68-80). -/
def normalizeAccountName (name : String) : Option String :=
  if name.isEmpty then none
  else
    let s := pyLowerStr (String.mk (pyStrip name.data))
    if s = "all" then some "all"
    else if s ∈ discoverSyn then some "discover"
    else if s ∈ huntingtonSyn then some "huntington"
    else if s ∈ allySyn then some "ally"
    else if s ∈ pncSyn then some "pnc"
    else if s ∈ (["discover", "huntington", "ally", "pnc"] : List String) then some s
    else none

/-- The `available` dict of lines 90-94, in `FRIENDLY_TO_ENV` order. -/
def availableAccounts (env : PlaidEnv) : List (String × String) :=
  ([("discover", env.tokenDiscover), ("huntington", env.tokenHuntington),
    ("ally", env.tokenAlly), ("pnc", env.tokenPnc)]).filterMap fun p =>
      match p.2 with
      | some t => if t.isEmpty then none else some (p.1, t)
      | none => none

def resolveList (avail : List (String × String)) :
    List Json → List (String × String) → List (String × String)
  | [], acc => acc
  | n :: rest, acc =>
    match normalizeAccountName (pyFStr n) with
    | some s =>
      if s = "all" then avail
      else
        match avail.find? (fun p => p.1 = s) with
        | some tup =>
          if tup ∈ acc then resolveList avail rest acc
          else resolveList avail rest (acc ++ [tup])
        | none => resolveList avail rest acc
    | none => resolveList avail rest acc

def noAccountsMsg (avail : List (String × String)) : String :=
  let names := avail.map Prod.fst
  let present :=
    String.intercalate ", "
      ((["ally", "discover", "huntington", "pnc"] : List String).filter (· ∈ names))
  "No accounts resolved. Allowed names: ally, discover, huntington, pnc. " ++
    "Tokens present for: " ++ (if present.isEmpty then "none" else present) ++
    ". Use 'all' to include all with tokens."

/-- `_resolve_selected_accounts` (lines 83-126): a string or an iterable of
names; iterating a dict yields its keys; iterating any other value raises
`TypeError`; an empty resolution raises `ValueError`. -/
def resolveSelected (env : PlaidEnv) (account_names : Json) :
    Except String (List (String × String)) :=
  let avail := availableAccounts env
  let resolved : Except String (List (String × String)) :=
    match account_names with
    | .str s =>
      match normalizeAccountName s with
      | some norm =>
        if norm = "all" then .ok avail
        else
          match avail.find? (fun p => p.1 = norm) with
          | some tup => .ok [tup]
          | none => .ok []
      | none => .ok ([] : List (String × String))
    | .arr xs => .ok (resolveList avail xs [])
    | .obj kvs => .ok (resolveList avail (kvs.map (fun p => Json.str p.1)) [])
    | j => .error ("'" ++ pyTypeName j ++ "' object is not iterable")
  match resolved with
  | .error m => .error m
  | .ok [] => .error (noAccountsMsg avail)
  | .ok l => .ok l

def isLeapYear (y : Int) : Bool :=
  (y % 4 = 0 && y % 100 ≠ 0) || y % 400 = 0

def daysInMonth (y m : Int) : Int :=
  if m = 2 then (if isLeapYear y then 29 else 28)
  else if m = 4 ∨ m = 6 ∨ m = 9 ∨ m = 11 then 30
  else 31

/-- Proleptic-Gregorian day number of a civil date (days since 1970-01-01). -/
def civilToDays (y m d : Int) : Int :=
  let y' := y - (if m ≤ 2 then 1 else 0)
  let era := Int.fdiv y' 400
  let yoe := y' - era * 400
  let mp := Int.fmod (m + 9) 12
  let doy := Int.fdiv (153 * mp + 2) 5 + d - 1
  let doe := yoe * 365 + Int.fdiv yoe 4 - Int.fdiv yoe 100 + doy
  era * 146097 + doe - 719468

/-- `datetime.strptime(s, "%Y-%m-%d").date()`: 1-4 year digits, 1-2 month and
day digits, calendar-valid. -/
def parseYmd (s : String) : Option (Int × Int × Int) :=
  match s.splitOn "-" with
  | [ys, ms, ds] =>
    if ys.data ≠ [] ∧ ys.data.all Char.isDigit ∧ ys.data.length ≤ 4 ∧
       ms.data ≠ [] ∧ ms.data.all Char.isDigit ∧ ms.data.length ≤ 2 ∧
       ds.data ≠ [] ∧ ds.data.all Char.isDigit ∧ ds.data.length ≤ 2 then
      let y : Int := digitsToNat ys.data
      let m : Int := digitsToNat ms.data
      let d : Int := digitsToNat ds.data
      if 1 ≤ y ∧ 1 ≤ m ∧ m ≤ 12 ∧ 1 ≤ d ∧ d ≤ daysInMonth y m then
        some (y, m, d)
      else none
    else none
  | _ => none

/-- `_parse_date` (lines 157-163): falsy input gives `None`; anything that
fails to parse raises `ValueError("Dates must be in YYYY-MM-DD format")`. -/
def pyParseDate (j : Json) : Except String (Option Int) :=
  if !pyTruthy j then .ok none
  else
    match j with
    | .str s =>
      match parseYmd s with
      | some (y, m, d) => .ok (some (civilToDays y m d))
      | none => .error "Dates must be in YYYY-MM-DD format"
    | _ => .error "Dates must be in YYYY-MM-DD format"

/-- `(request_type or "").strip().lower()` (line 293): falsy values become
`""`; a truthy non-string raises `AttributeError` on `.strip`. -/
def rtypeNormalize (j : Json) : Except String String :=
  if !pyTruthy j then .ok ""
  else
    match j with
    | .str s => .ok (pyLowerStr (String.mk (pyStrip s.data)))
    | other => .error ("'" ++ pyTypeName other ++ "' object has no attribute 'strip'")

def acceptedRtypes : List String := ["balance", "balances", "transactions", "txns", "txn"]

/-- `get_financial_info` (lines 267-359). The whole body is wrapped in
`try/except Exception`, so every raised message comes back as
`{"error": str(e)}`. The balances and transactions back-ends are oracles in
`PlaidEnv`. -/
def getFinancialInfo (env : PlaidEnv)
    (account_names request_type start_date end_date : Json) : Json :=
  match initPlaidClient env with
  | .error m => errJson m
  | .ok _ =>
    match resolveSelected env account_names with
    | .error m => errJson m
    | .ok selected =>
      match rtypeNormalize request_type with
      | .error m => errJson m
      | .ok rtype =>
        if rtype ∉ acceptedRtypes then
          errJson "Invalid request_type. Use 'balance' or 'transactions'."
        else if rtype = "balance" ∨ rtype = "balances" then
          Json.str (env.balancesOutcome selected)
        else
          match pyParseDate start_date with
          | .error m => errJson m
          | .ok sd =>
            match pyParseDate end_date with
            | .error m => errJson m
            | .ok ed =>
              match sd, ed with
              | some s, some e =>
                if e < s then errJson "start_date must be on or before end_date"
                else env.txnsOutcome selected s e
              | _, _ =>
                env.txnsOutcome selected (sd.getD (env.today - 90)) (ed.getD env.today)

/-!
## Tool registry (src/backend/tools/function_mapper.py)

`calculate(expression)` has one required parameter; binding `**arguments`
against it raises `TypeError` unless the argument dict is exactly
`{"expression": ...}`. `get_financial_info` has two required and two
defaulted parameters. Binding-error messages follow CPython's format.
-/

/-- `calculate(v)` on an arbitrary Python value: `(v or "")` turns falsy
values into `""` (→ "Empty expression"); a truthy non-string fails at
`.strip()`, caught by calculate's own handler. `calculate` never raises. -/
def calcReceive : Json → Json
  | .str s => calculate s
  | other =>
    if pyTruthy other then
      errJson ("'" ++ pyTypeName other ++ "' object has no attribute 'strip'")
    else errJson "Empty expression"

def calcBindMsg (keys : List String) : String :=
  if "expression" ∉ keys then
    "calculate() missing 1 required positional argument: 'expression'"
  else
    "calculate() got an unexpected keyword argument '" ++
      ((keys.filter (· ≠ "expression")).headD "") ++ "'"

def calcCap : Capability :=
  { kw := fun kvs =>
      match kvs with
      | [("expression", v)] => .ok (calcReceive v)
      | _ => .error ⟨true, calcBindMsg (kvs.map Prod.fst)⟩
    pos := fun v => .ok (calcReceive v) }

def plaidKeys : List String := ["account_names", "request_type", "start_date", "end_date"]

def plaidBindMsg (keys : List String) : String :=
  if "account_names" ∉ keys ∧ "request_type" ∉ keys then
    "get_financial_info() missing 2 required positional arguments: 'account_names' and 'request_type'"
  else if "account_names" ∉ keys then
    "get_financial_info() missing 1 required positional argument: 'account_names'"
  else if "request_type" ∉ keys then
    "get_financial_info() missing 1 required positional argument: 'request_type'"
  else
    "get_financial_info() got an unexpected keyword argument '" ++
      ((keys.filter (· ∉ plaidKeys)).headD "") ++ "'"

def plaidCap (env : PlaidEnv) : Capability :=
  { kw := fun kvs =>
      let keys := kvs.map Prod.fst
      if keys.all (· ∈ plaidKeys) ∧ "account_names" ∈ keys ∧ "request_type" ∈ keys then
        .ok (getFinancialInfo env (dictGetD kvs "account_names")
          (dictGetD kvs "request_type") (dictGetD kvs "start_date")
          (dictGetD kvs "end_date"))
      else .error ⟨true, plaidBindMsg keys⟩
    pos := fun _ =>
      .error ⟨true, "get_financial_info() missing 1 required positional argument: 'request_type'"⟩ }

/-- The static registry of function_mapper.py, parametrised by the external
environment the Plaid tool reads. -/
def FUNCTION_MAP (env : PlaidEnv) : String → Option Capability :=
  fun n =>
    if n = "calculate" then some calcCap
    else if n = "get_financial_info" then some (plaidCap env)
    else none

/-!
## Session teardown (src/backend/main.py, `run_agent` lines 109-153)

Trace model of the teardown control flow after a relay task raises while the
session is streaming (both streams open). The exception from
`asyncio.gather` leaves the `async with` block — closing the websocket —
and then the `finally` block runs: each stream release inside its own
`try/except Exception: pass`, then `pa.terminate()`. `asyncio.gather` with
default arguments does NOT cancel the sibling task when one task raises
(documented asyncio semantics); `run_agent` contains no `.cancel()` call, so
no cancellation happens before it returns (the leftover task is only
cancelled by `asyncio.run`'s loop shutdown afterwards).
-/

inductive TdEvent where
  | cancelOtherRelay
  | closeConnection
  | releaseInput
  | releaseOutput
  | paTerminate
deriving DecidableEq

/-- A straight-line statement sequence: emitted events plus normal or
exceptional termination. -/
abbrev TdM := List TdEvent × Except Unit Unit

def tdAct (e : TdEvent) (fails : Bool) : TdM :=
  ([e], if fails then .error () else .ok ())

/-- Sequencing: an exception skips the rest. -/
def tdSeq (a b : TdM) : TdM :=
  match a with
  | (tr, .ok _) => (tr ++ b.1, b.2)
  | (tr, .error u) => (tr, .error u)

/-- `try: ... except Exception: pass`. -/
def tdTry (a : TdM) : TdM := (a.1, .ok ())

/-- The teardown executed by `run_agent` after either relay raises, given
whether each device release itself fails. -/
def runAgentTeardown (inFails outFails : Bool) : TdM :=
  tdSeq (tdAct .closeConnection false)
    (tdSeq (tdTry (tdAct .releaseInput inFails))
      (tdSeq (tdTry (tdAct .releaseOutput outFails))
        (tdAct .paTerminate false)))

instance {α β : Type} [DecidableEq α] [DecidableEq β] : DecidableEq (Except α β) :=
  fun a b =>
    match a, b with
    | .error x, .error y =>
      if h : x = y then isTrue (h ▸ rfl)
      else isFalse (fun k => h (Except.error.inj k))
    | .ok x, .ok y =>
      if h : x = y then isTrue (h ▸ rfl)
      else isFalse (fun k => h (Except.ok.inj k))
    | .error _, .ok _ => isFalse (fun k => Except.noConfusion k)
    | .ok _, .error _ => isFalse (fun k => Except.noConfusion k)

/-- A concrete external environment used by witnesses and counterexamples:
Plaid importable, credentials set, one access token (PNC) present. -/
def env0 : PlaidEnv :=
  { importOk := true, clientId := some "id", secret := some "sec",
    tokenDiscover := none, tokenHuntington := none, tokenAlly := none,
    tokenPnc := some "tok-pnc", today := 20000,
    balancesOutcome := fun _ => "", txnsOutcome := fun _ _ _ => Json.null }

/-- The claim C4 inbound Control Message, byte for byte. -/
def c4Request : String :=
  "\x7b\"type\":\"FunctionCallRequest\",\"functions\":[\x7b\"id\":\"abc\",\"name\":\"calculate\",\"arguments\":\"\x7b\\\"expression\\\":\\\"(2+3)*4\\\"\x7d\"\x7d]\x7d"

/-- The reply text the code sends (json.dumps default separators). -/
def c4SentText : String :=
  "\x7b\"type\": \"FunctionCallResponse\", \"id\": \"abc\", \"name\": \"calculate\", \"content\": \"\x7b\\\"result\\\": 20\x7d\"\x7d"

/-- The claim C4 expected reply, byte for byte as written in the claim. -/
def c4ClaimText : String :=
  "\x7b\"type\":\"FunctionCallResponse\",\"id\":\"abc\",\"name\":\"calculate\",\"content\":\"\x7b\\\"result\\\": 20\x7d\"\x7d"

/-- The JSON value both renderings denote. -/
def c4Value : Json :=
  .obj [("type", .str "FunctionCallResponse"), ("id", .str "abc"),
        ("name", .str "calculate"), ("content", .str "\x7b\"result\": 20\x7d")]

/-- A capability whose keyword invocation fails with a non-TypeError. -/
def boomCap : Capability :=
  ⟨fun _ => .error ⟨false, "boom"⟩, fun v => .ok v⟩

/-- A capability that always succeeds. -/
def fineCap : Capability :=
  ⟨fun _ => .ok (Json.str "fine"), fun v => .ok v⟩

def cexMap : String → Option Capability :=
  fun s =>
    if s = "boom" then some boomCap
    else if s = "fine" then some fineCap
    else none

/-- A capability accepting only a single positional argument, as in the
spec's fallback example. -/
def posOnlyCap : Capability :=
  ⟨fun _ => .error ⟨true, "tool() takes 1 positional argument but 0 were given"⟩,
   fun v => .ok (Json.obj [("echo", v)])⟩

def posOnlyMap : String → Option Capability :=
  fun s => if s = "tool" then some posOnlyCap else none

/-- Node kinds claim C5 requires the evaluator to reject: identifiers,
function calls, attribute access, and non-numeric literals (string
constants, `None`). -/
def containsBad : Ast → Bool
  | .expression b => containsBad b
  | .const (.cstr _) => true
  | .const .cnone => true
  | .const _ => false
  | .unaryOp _ e => containsBad e
  | .binOp _ l r => containsBad l || containsBad r
  | .name _ => true
  | .call => true
  | .attrAccess => true
  | .other => false

/-- A pure numeric expression: int/float literals, unary sign, and the six
allowed binary operators (booleans are not numeric literals). -/
def pureNum : Ast → Bool
  | .expression b => pureNum b
  | .const (.cint _) => true
  | .const (.cfloat _) => true
  | .const _ => false
  | .unaryOp _ e => pureNum e
  | .binOp _ l r => pureNum l && pureNum r
  | _ => false

/-- Height of an AST (leaves have height 1); the depth guard admits every
node of an `ast.Expression` whose body has height at most 20. -/
def ht : Ast → Nat
  | .expression b => ht b + 1
  | .unaryOp _ e => ht e + 1
  | .binOp _ l r => max (ht l) (ht r) + 1
  | _ => 1

/-!
## Theorems for the claims
-/

/-- C4: dispatching the inbound Control Message
`{"type":"FunctionCallRequest","functions":[{"id":"abc","name":"calculate",
"arguments":"{\"expression\":\"(2+3)*4\"}"}]}` sends exactly one outbound
reply, and its JSON is
`{"type":"FunctionCallResponse","id":"abc","name":"calculate",
"content":"{\"result\": 20}"}` (the code's rendering and the claim's
rendering decode to the same JSON value). Holds for every environment, since
only the calculator capability is invoked. -/
theorem claim_C4 : ∀ env : PlaidEnv,
    receiveText (FUNCTION_MAP env) c4Request = [c4SentText] ∧
    jsonLoads c4SentText = .ok c4Value ∧ jsonLoads c4ClaimText = .ok c4Value := by
  intro env
  exact ⟨rfl, rfl, rfl⟩

/-- Counterexample for C1: a two-entry request whose first entry's capability
fails with a non-TypeError produces exactly ONE reply (the converted error);
the second entry — which on its own would get the reply shown in the third
conjunct — is never processed, because the `try` wraps the whole loop. -/
theorem claim_C1_cex :
    processEntries cexMap
        [⟨.str "1", .str "boom", none⟩, ⟨.str "2", .str "fine", none⟩] =
      [failureReply (.str "1") (.str "boom") "boom"] ∧
    (processEntries cexMap
        [⟨.str "1", .str "boom", none⟩, ⟨.str "2", .str "fine", none⟩]).length = 1 ∧
    handleEntry cexMap ⟨.str "2", .str "fine", none⟩ =
      .ok ⟨.str "2", .str "fine", "\"fine\""⟩ :=
  ⟨rfl, rfl, rfl⟩

/-- C1 (amended): a non-TypeError failure while invoking an entry's
capability is converted into the Tool Result
`{"error": "Function call failed: <message>"}` and sent as that entry's
reply, but it terminates the dispatch loop: whatever entries follow, the
output is exactly that single reply and the later entries get none. (The
exception is caught, so the receiver loop and the session continue.) -/
theorem claim_C1 : ∀ (fmap : String → Option Capability) (fc : FunctionCall)
    (rest : List FunctionCall) (cap : Capability) (e : PyErr),
    lookupName fmap fc.name = some cap →
    kwInvoke cap (parsedArguments fc) = .error e →
    e.isTE = false →
    processEntries fmap (fc :: rest) = [failureReply fc.id fc.name e.msg] := by
  intro fmap fc rest cap e hl hk he
  have hent : handleEntry fmap fc = .error ⟨fc.id, fc.name, e.msg⟩ := by
    unfold handleEntry dispatchEntry
    simp only [hl, hk, he, Bool.false_eq_true, if_false]
  unfold processEntries
  rw [hent]

/-- Witness for C1 (amended) at a concrete failing entry. -/
theorem claim_C1_witness :
    processEntries cexMap [⟨.str "7", .str "boom", none⟩] =
      [failureReply (.str "7") (.str "boom") "boom"] :=
  claim_C1 cexMap ⟨.str "7", .str "boom", none⟩ [] boomCap ⟨false, "boom"⟩
    rfl rfl rfl

/-- Counterexample for C2: dispatched to the real registry's `calculate` with
arguments `{"expression": "", "query": "2+2"}`, the key `expression` IS
present, so by the claim the capability should receive `""` (and the reply
would carry `calculate("") = {"error": "Empty expression"}`); the code's
`or`-chain skips the falsy `""` and passes `"2+2"`, so the actual reply is
`{"result": 4}`. -/
theorem claim_C2_cex :
    handleEntry (FUNCTION_MAP env0)
        ⟨.str "i1", .str "calculate",
          some (.str "\x7b\"expression\": \"\", \"query\": \"2+2\"\x7d")⟩ =
      .ok ⟨.str "i1", .str "calculate", "\x7b\"result\": 4\x7d"⟩ ∧
    calcReceive (Json.str "") = errJson "Empty expression" ∧
    ("\x7b\"result\": 4\x7d" : String) ≠ jsonDumps (errJson "Empty expression") :=
  ⟨rfl, rfl, by decide⟩

/-- C2 (amended): when keyword invocation fails with a TypeError, the
dispatcher retries exactly once with a single positional argument: the first
TRUTHY value among `expression`, `query`, `input` in that order (Python `or`
chaining — a present-but-falsy value is skipped); if none is truthy, the
value of `input` (Python `None` when absent) is passed. -/
theorem claim_C2 : ∀ (fmap : String → Option Capability) (fc : FunctionCall)
    (cap : Capability) (kvs : List (String × Json)) (e : PyErr),
    lookupName fmap fc.name = some cap →
    parsedArguments fc = .obj kvs →
    cap.kw kvs = .error e →
    e.isTE = true →
    ∃ v : Json,
      (handleEntry fmap fc =
        match cap.pos v with
        | .ok r => .ok ⟨fc.id, fc.name, jsonDumps r⟩
        | .error e2 => .error ⟨fc.id, fc.name, e2.msg⟩) ∧
      ((pyTruthy (dictGetD kvs "expression") = true ∧
          v = dictGetD kvs "expression") ∨
       (pyTruthy (dictGetD kvs "expression") = false ∧
          pyTruthy (dictGetD kvs "query") = true ∧ v = dictGetD kvs "query") ∨
       (pyTruthy (dictGetD kvs "expression") = false ∧
          pyTruthy (dictGetD kvs "query") = false ∧
          v = dictGetD kvs "input")) := by
  intro fmap fc cap kvs e hl hp hk he
  unfold handleEntry
  rw [hp]
  unfold dispatchEntry
  simp only [hl, kwInvoke, hk, he, if_true]
  by_cases h1 : pyTruthy (dictGetD kvs "expression")
  · refine ⟨dictGetD kvs "expression", ?_, Or.inl ⟨h1, rfl⟩⟩
    simp only [fallbackValue, h1, if_true]
  · by_cases h2 : pyTruthy (dictGetD kvs "query")
    · refine ⟨dictGetD kvs "query", ?_,
        Or.inr (Or.inl ⟨by simpa using h1, h2, rfl⟩)⟩
      simp only [fallbackValue, h1, h2, if_true, if_false, Bool.false_eq_true]
    · refine ⟨dictGetD kvs "input", ?_,
        Or.inr (Or.inr ⟨by simpa using h1, by simpa using h2, rfl⟩)⟩
      simp only [fallbackValue, h1, h2, if_true, if_false, Bool.false_eq_true]

/-- Witness for C2 (amended): a single-positional capability dispatched with
`{"expression": "2+2"}` receives `"2+2"` as its sole input. -/
theorem claim_C2_witness :
    handleEntry posOnlyMap
        ⟨.str "w1", .str "tool", some (.str "\x7b\"expression\": \"2+2\"\x7d")⟩ =
      .ok ⟨.str "w1", .str "tool", "\x7b\"echo\": \"2+2\"\x7d"⟩ := by
  obtain ⟨v, h, hv⟩ :=
    claim_C2 posOnlyMap
      ⟨.str "w1", .str "tool", some (.str "\x7b\"expression\": \"2+2\"\x7d")⟩
      posOnlyCap [("expression", .str "2+2")]
      ⟨true, "tool() takes 1 positional argument but 0 were given"⟩
      rfl rfl rfl rfl
  rcases hv with ⟨_, hveq⟩ | ⟨h1, _⟩ | ⟨h1, _⟩
  · subst hveq; exact h
  · exact absurd h1 (by decide)
  · exact absurd h1 (by decide)

/-- `(request_type or "").strip().lower()` on a string never raises and is
plain strip-and-lowercase. -/
theorem rtypeNormalize_str (s : String) :
    rtypeNormalize (.str s) = .ok (pyLowerStr (String.mk (pyStrip s.data))) := by
  unfold rtypeNormalize
  cases hd : s.data with
  | nil => simp [pyTruthy, hd, pyStrip, pyLowerStr]
  | cons c t => simp [pyTruthy, hd]

/-- Counterexample for C10: a truthy non-string `request_type` (here the
number 5) does not produce the claimed invalid-request_type error; `.strip()`
raises `AttributeError`, which the outer handler returns instead. -/
theorem claim_C10_cex :
    getFinancialInfo env0 (.str "pnc") (.num (.int 5)) .null .null =
      errJson "'int' object has no attribute 'strip'" ∧
    errJson "'int' object has no attribute 'strip'" ≠
      errJson "Invalid request_type. Use 'balance' or 'transactions'." :=
  ⟨rfl, by decide⟩

/-- C10 (amended): provided client initialisation and account resolution
succeed, `get_financial_info` normalises a string `request_type` by
strip+lowercase and accepts the synonyms `balances`, `txns`, `txn` besides
`balance`/`transactions`; any other string — and `None` — yields exactly
`{"error": "Invalid request_type. Use 'balance' or 'transactions'."}`
without raising. (A truthy non-string `request_type`, or an init/resolution
failure, instead yields that failure's own `{"error": ...}`.) -/
theorem claim_C10 : ∀ (env : PlaidEnv) (a : Json) (sel : List (String × String))
    (s : String) (sd ed : Json),
    initPlaidClient env = .ok () →
    resolveSelected env a = .ok sel →
    (pyLowerStr (String.mk (pyStrip s.data)) ∉ acceptedRtypes →
      getFinancialInfo env a (.str s) sd ed =
        errJson "Invalid request_type. Use 'balance' or 'transactions'.") ∧
    (getFinancialInfo env a .null sd ed =
      errJson "Invalid request_type. Use 'balance' or 'transactions'.") ∧
    ((pyLowerStr (String.mk (pyStrip s.data)) = "balance" ∨
        pyLowerStr (String.mk (pyStrip s.data)) = "balances") →
      getFinancialInfo env a (.str s) sd ed = .str (env.balancesOutcome sel)) ∧
    (pyLowerStr (String.mk (pyStrip s.data)) ∈
        (["transactions", "txns", "txn"] : List String) →
      getFinancialInfo env a (.str s) .null .null =
        env.txnsOutcome sel (env.today - 90) env.today) := by
  intro env a sel s sd ed hinit hres
  have hnorm := rtypeNormalize_str s
  refine ⟨?_, ?_, ?_, ?_⟩
  · intro hno
    unfold getFinancialInfo
    simp only [hinit, hres, hnorm]
    rw [if_pos hno]
  · unfold getFinancialInfo
    simp only [hinit, hres]
    rfl
  · intro hbal
    unfold getFinancialInfo
    simp only [hinit, hres, hnorm]
    rcases hbal with h | h <;> rw [h] <;> rfl
  · intro htx
    unfold getFinancialInfo
    simp only [hinit, hres, hnorm]
    simp only [List.mem_cons, List.mem_singleton, List.not_mem_nil, or_false] at htx
    rcases htx with h | h | h <;> rw [h] <;> rfl

/-- Witness for C10 (amended) in the concrete environment `env0` with the
single resolvable account `pnc`. -/
theorem claim_C10_witness :
    getFinancialInfo env0 (.str "pnc") (.str "bogus") .null .null =
      errJson "Invalid request_type. Use 'balance' or 'transactions'." ∧
    getFinancialInfo env0 (.str "pnc") (.str "  Balances ") .null .null =
      .str (env0.balancesOutcome [("pnc", "tok-pnc")]) ∧
    getFinancialInfo env0 (.str "pnc") (.str "txn") .null .null =
      env0.txnsOutcome [("pnc", "tok-pnc")] (env0.today - 90) env0.today := by
  refine ⟨?_, ?_, ?_⟩
  · exact (claim_C10 env0 (.str "pnc") [("pnc", "tok-pnc")] "bogus"
      .null .null rfl rfl).1 (by decide)
  · exact (claim_C10 env0 (.str "pnc") [("pnc", "tok-pnc")] "  Balances "
      .null .null rfl rfl).2.2.1 (Or.inr (by decide))
  · exact (claim_C10 env0 (.str "pnc") [("pnc", "tok-pnc")] "txn"
      .null .null rfl rfl).2.2.2 (by decide)

/-- C9: `calculate` on an empty or all-whitespace string returns exactly
`{"error": "Empty expression"}` (the strip happens before any parse). -/
theorem claim_C9 : ∀ s : String, (∀ c ∈ s.data, isPySpace c = true) →
    calculate s = errJson "Empty expression" := by
  intro s h
  have hd : s.data.dropWhile isPySpace = [] := by
    rw [List.dropWhile_eq_nil_iff]
    exact fun x hx => h x hx
  unfold calculate pyStrip
  rw [hd]
  rfl

/-- Witness for C9 at the concrete all-whitespace input `"  \t "`. -/
theorem claim_C9_witness : calculate "  \t " = errJson "Empty expression" :=
  claim_C9 "  \t " (by decide)

/-- C8: an entry with no `arguments` field at all is dispatched exactly as if
`arguments` were the string `"{}"`: the parsed argument set is empty, the
capability is invoked with zero keyword arguments, and the behaviour is
identical to the JSON-parse-failure case (here `"]["`). -/
theorem claim_C8 : ∀ (fmap : String → Option Capability) (i n : Json),
    parsedArguments ⟨i, n, none⟩ = Json.obj [] ∧
    handleEntry fmap ⟨i, n, none⟩ = handleEntry fmap ⟨i, n, some (.str "\x7b\x7d")⟩ ∧
    handleEntry fmap ⟨i, n, none⟩ = handleEntry fmap ⟨i, n, some (.str "][")⟩ ∧
    ∀ cap : Capability, kwInvoke cap (parsedArguments ⟨i, n, none⟩) = cap.kw [] := by
  intro fmap i n
  exact ⟨rfl, rfl, rfl, fun cap => rfl⟩

/-- Counterexample for C7: in the teardown trace after a relay failure there
is no cancellation of the sibling relay before `run_agent` returns
(`asyncio.gather` does not cancel a sibling when one task raises, and
`run_agent` never calls `.cancel()`), contradicting the claim's "cancels the
other relay ... before the orchestrator's stop operation returns". -/
theorem claim_C7_cex :
    (runAgentTeardown false false).1 =
      [TdEvent.closeConnection, TdEvent.releaseInput, TdEvent.releaseOutput,
       TdEvent.paTerminate] ∧
    TdEvent.cancelOtherRelay ∉ (runAgentTeardown false false).1 := by
  exact ⟨rfl, by decide⟩

/-- C7 (amended): whenever a relay terminates the session with a failure,
`run_agent` closes the connection and attempts release of both device handles
independently (each release is attempted and the teardown completes normally
whatever combination of release failures occurs), all before returning — but
it does not cancel the sibling relay. -/
theorem claim_C7 : ∀ a b : Bool,
    (runAgentTeardown a b).1 =
      [TdEvent.closeConnection, TdEvent.releaseInput, TdEvent.releaseOutput,
       TdEvent.paTerminate] ∧
    TdEvent.cancelOtherRelay ∉ (runAgentTeardown a b).1 ∧
    (runAgentTeardown a b).2 = .ok () := by
  intro a b
  cases a <;> cases b <;> exact ⟨rfl, by decide, rfl⟩

/-- C3: an entry whose `name` is a string not in the Tool Registry raises no
exception; the reply echoes the entry's `id`/`name` exactly and its `content`
is the JSON encoding of `{"error": "Unknown function: <name>"}`. -/
theorem claim_C3 : ∀ (env : PlaidEnv) (fc : FunctionCall) (s : String),
    fc.name = .str s → s ≠ "calculate" → s ≠ "get_financial_info" →
    handleEntry (FUNCTION_MAP env) fc =
      .ok ⟨fc.id, fc.name, jsonDumps (errJson ("Unknown function: " ++ s))⟩ := by
  intro env fc s hname h1 h2
  unfold handleEntry dispatchEntry lookupName
  rw [hname]
  simp [FUNCTION_MAP, h1, h2, pyFStr]

/-- Witness for C3 at the unknown name `"frobnicate"`, including the
round-trip: the reply's content JSON-decodes to an object whose `error` key
mentions the unknown name. -/
theorem claim_C3_witness :
    handleEntry (FUNCTION_MAP env0) ⟨.str "id-9", .str "frobnicate", none⟩ =
      .ok ⟨.str "id-9", .str "frobnicate",
        jsonDumps (errJson ("Unknown function: " ++ "frobnicate"))⟩ ∧
    jsonLoads (jsonDumps (errJson "Unknown function: frobnicate")) =
      .ok (errJson "Unknown function: frobnicate") :=
  ⟨claim_C3 env0 ⟨.str "id-9", .str "frobnicate", none⟩ "frobnicate" rfl
      (by decide) (by decide), rfl⟩

/-- The instrumented evaluator computes the same result as `safeEval`. -/
theorem safeEvalT_fst : ∀ (t : Ast) (d : Nat), (safeEvalT t d).1 = safeEval t d := by
  intro t
  induction t with
  | expression body ih =>
    intro d
    rw [safeEvalT, safeEval]
    by_cases h : d > 20
    · simp [h]
    · simp [h, ih]
  | const c =>
    intro d
    rw [safeEvalT, safeEval]
    by_cases h : d > 20
    · simp [h]
    · by_cases hc : c.isNumeric <;> simp [h, hc]
  | unaryOp op e ih =>
    intro d
    rw [safeEvalT, safeEval]
    by_cases h : d > 20
    · simp [h]
    · simp only [h, if_false]
      rcases he : safeEvalT e (d + 1) with ⟨r, tr⟩
      have hagree := ih (d + 1)
      rw [he] at hagree
      simp only at hagree
      rw [← hagree]
      cases r <;> rfl
  | binOp op l r ihl ihr =>
    intro d
    rw [safeEvalT, safeEval]
    by_cases h : d > 20
    · simp [h]
    · simp only [h, if_false]
      rcases hel : safeEvalT l (d + 1) with ⟨lr, ltr⟩
      rcases her : safeEvalT r (d + 1) with ⟨rr, rtr⟩
      have hal := ihl (d + 1)
      have har := ihr (d + 1)
      rw [hel] at hal
      rw [her] at har
      simp only at hal har
      rw [← hal, ← har]
      cases lr with
      | error m => rfl
      | ok lv =>
        cases rr with
        | error m => rfl
        | ok rv =>
          by_cases hp : op = BinT.pow
          · subst hp
            by_cases hg : 1000000 < |lv.toRat| ∨ 12 < |rv.toRat| <;> simp [hg]
          · simp [hp]
  | name s =>
    intro d
    rw [safeEvalT, safeEval]
    by_cases h : d > 20 <;> simp [h]
  | call =>
    intro d
    rw [safeEvalT, safeEval]
    by_cases h : d > 20 <;> simp [h]
  | attrAccess =>
    intro d
    rw [safeEvalT, safeEval]
    by_cases h : d > 20 <;> simp [h]
  | other =>
    intro d
    rw [safeEvalT, safeEval]
    by_cases h : d > 20 <;> simp [h]

/-- Any AST containing one of the rejected node kinds evaluates to an error
(a raised `ValueError`) at every depth. -/
theorem containsBad_err : ∀ (t : Ast) (d : Nat), containsBad t = true →
    ∃ m, safeEval t d = .error m := by
  intro t
  induction t with
  | expression body ih =>
    intro d hb
    rw [containsBad] at hb
    by_cases h : d > 20
    · exact ⟨"Expression too complex", by rw [safeEval]; simp [h]⟩
    · obtain ⟨m, hm⟩ := ih (d + 1) hb
      exact ⟨m, by rw [safeEval]; simp [h, hm]⟩
  | const c =>
    intro d hb
    by_cases h : d > 20
    · exact ⟨"Expression too complex", by rw [safeEval]; simp [h]⟩
    · cases c <;> simp only [containsBad] at hb <;>
        first
        | exact absurd hb (by decide)
        | exact ⟨"Only numbers are allowed",
            by rw [safeEval]; simp [h, PyConst.isNumeric]⟩
  | unaryOp op e ih =>
    intro d hb
    rw [containsBad] at hb
    by_cases h : d > 20
    · exact ⟨"Expression too complex", by rw [safeEval]; simp [h]⟩
    · obtain ⟨m, hm⟩ := ih (d + 1) hb
      exact ⟨m, by rw [safeEval]; simp [h, hm]⟩
  | binOp op l r ihl ihr =>
    intro d hb
    simp only [containsBad, Bool.or_eq_true] at hb
    by_cases h : d > 20
    · exact ⟨"Expression too complex", by rw [safeEval]; simp [h]⟩
    · rcases hb with hbl | hbr
      · obtain ⟨m, hm⟩ := ihl (d + 1) hbl
        exact ⟨m, by rw [safeEval]; simp [h, hm]⟩
      · rcases hel : safeEval l (d + 1) with m' | lv
        · exact ⟨m', by rw [safeEval]; simp [h, hel]⟩
        · obtain ⟨m, hm⟩ := ihr (d + 1) hbr
          exact ⟨m, by rw [safeEval]; simp [h, hel, hm]⟩
  | name s =>
    intro d hb
    by_cases h : d > 20
    · exact ⟨"Expression too complex", by rw [safeEval]; simp [h]⟩
    · exact ⟨"Unsupported expression", by rw [safeEval]; simp [h]⟩
  | call =>
    intro d hb
    by_cases h : d > 20
    · exact ⟨"Expression too complex", by rw [safeEval]; simp [h]⟩
    · exact ⟨"Unsupported expression", by rw [safeEval]; simp [h]⟩
  | attrAccess =>
    intro d hb
    by_cases h : d > 20
    · exact ⟨"Expression too complex", by rw [safeEval]; simp [h]⟩
    · exact ⟨"Unsupported expression", by rw [safeEval]; simp [h]⟩
  | other =>
    intro d hb
    simp [containsBad] at hb

/-- If evaluation reaches a power operation whose operands violate the
exponent guard, the evaluator's result is an error. -/
theorem trace_guard_err : ∀ (t : Ast) (d : Nat) (lv rv : PyVal),
    (lv, rv) ∈ (safeEvalT t d).2 →
    1000000 < |lv.toRat| ∨ 12 < |rv.toRat| →
    ∃ m, (safeEvalT t d).1 = .error m := by
  intro t
  induction t with
  | expression body ih =>
    intro d lv rv hm hg
    rw [safeEvalT] at hm ⊢
    by_cases h : d > 20
    · simp [h] at hm
    · simp only [h, if_false] at hm ⊢
      exact ih (d + 1) lv rv hm hg
  | const c =>
    intro d lv rv hm hg
    rw [safeEvalT] at hm
    by_cases h : d > 20 <;> simp [h] at hm
  | unaryOp op e ih =>
    intro d lv rv hm hg
    rw [safeEvalT] at hm ⊢
    by_cases h : d > 20
    · simp [h] at hm
    · simp only [h, if_false] at hm ⊢
      rcases he : safeEvalT e (d + 1) with ⟨r, tr⟩
      rw [he] at hm
      cases r with
      | error m' => exact ⟨m', rfl⟩
      | ok v =>
        simp only at hm
        obtain ⟨m, hme⟩ := ih (d + 1) lv rv (by rw [he]; exact hm) hg
        rw [he] at hme
        exact absurd hme (by simp)
  | binOp op l r ihl ihr =>
    intro d lv rv hm hg
    rw [safeEvalT] at hm ⊢
    by_cases h : d > 20
    · simp [h] at hm
    · simp only [h, if_false] at hm ⊢
      rcases hel : safeEvalT l (d + 1) with ⟨lr, ltr⟩
      rw [hel] at hm
      cases lr with
      | error m' => exact ⟨m', rfl⟩
      | ok lv' =>
        rcases her : safeEvalT r (d + 1) with ⟨rr, rtr⟩
        rw [her] at hm
        cases rr with
        | error m' => exact ⟨m', rfl⟩
        | ok rv' =>
          by_cases hp : op = BinT.pow
          · subst hp
            simp only [if_true, reduceIte] at hm ⊢
            by_cases hgd : 1000000 < |lv'.toRat| ∨ 12 < |rv'.toRat|
            · exact ⟨"Exponent too large", by simp [hgd]⟩
            · simp only [hgd, if_false, List.mem_append, List.mem_singleton] at hm
              rcases hm with (hm | hm) | hm
              · obtain ⟨m, hme⟩ := ihl (d + 1) lv rv (by rw [hel]; exact hm) hg
                rw [hel] at hme
                exact absurd hme (by simp)
              · obtain ⟨m, hme⟩ := ihr (d + 1) lv rv (by rw [her]; exact hm) hg
                rw [her] at hme
                exact absurd hme (by simp)
              · have h1 : lv = lv' := congrArg Prod.fst hm
                have h2 : rv = rv' := congrArg Prod.snd hm
                exact absurd hg (h1 ▸ h2 ▸ hgd)
          · simp only [hp, if_false, List.mem_append] at hm
            rcases hm with hm | hm
            · obtain ⟨m, hme⟩ := ihl (d + 1) lv rv (by rw [hel]; exact hm) hg
              rw [hel] at hme
              exact absurd hme (by simp)
            · obtain ⟨m, hme⟩ := ihr (d + 1) lv rv (by rw [her]; exact hm) hg
              rw [her] at hme
              exact absurd hme (by simp)
  | name s =>
    intro d lv rv hm hg
    rw [safeEvalT] at hm
    by_cases h : d > 20 <;> simp [h] at hm
  | call =>
    intro d lv rv hm hg
    rw [safeEvalT] at hm
    by_cases h : d > 20 <;> simp [h] at hm
  | attrAccess =>
    intro d lv rv hm hg
    rw [safeEvalT] at hm
    by_cases h : d > 20 <;> simp [h] at hm
  | other =>
    intro d lv rv hm hg
    rw [safeEvalT] at hm
    by_cases h : d > 20 <;> simp [h] at hm

/-- On pure numeric expressions that fit under the depth guard and whose
reached powers satisfy the exponent guard, `_safe_eval_node` computes exactly
what the guard-free reference evaluator computes. -/
theorem stdEval_agree : ∀ (t : Ast) (d : Nat),
    pureNum t = true → d + ht t ≤ 21 →
    (∀ p ∈ (stdEvalT t).2, |p.1.toRat| ≤ 1000000 ∧ |p.2.toRat| ≤ 12) →
    safeEval t d = (stdEvalT t).1 := by
  intro t
  induction t with
  | expression body ih =>
    intro d pn hht htr
    rw [pureNum] at pn
    rw [ht] at hht
    rw [safeEval, stdEvalT]
    have h : ¬d > 20 := by omega
    simp only [h, if_false]
    exact ih (d + 1) pn (by omega) htr
  | const c =>
    intro d pn hht htr
    have hht1 : ht (Ast.const c) = 1 := rfl
    rw [hht1] at hht
    have h : ¬d > 20 := by omega
    cases c with
    | cint i => rw [safeEval, stdEvalT]; simp [h, PyConst.isNumeric]
    | cfloat q => rw [safeEval, stdEvalT]; simp [h, PyConst.isNumeric]
    | cbool b => exact Bool.noConfusion pn
    | cstr s => exact Bool.noConfusion pn
    | cnone => exact Bool.noConfusion pn
  | unaryOp op e ih =>
    intro d pn hht htr
    rw [pureNum] at pn
    rw [ht] at hht
    have h : ¬d > 20 := by omega
    rw [safeEval, stdEvalT]
    rw [stdEvalT] at htr
    simp only [h, if_false]
    rcases he : stdEvalT e with ⟨r, tr⟩
    rw [he] at htr
    cases r with
    | error m =>
      have hagree := ih (d + 1) pn (by omega) (by rw [he]; exact fun p hp => htr p hp)
      rw [he] at hagree
      simp only at hagree
      rw [hagree]
    | ok v =>
      have hagree := ih (d + 1) pn (by omega) (by rw [he]; exact fun p hp => htr p hp)
      rw [he] at hagree
      simp only at hagree
      rw [hagree]
  | binOp op l r ihl ihr =>
    intro d pn hht htr
    simp only [pureNum, Bool.and_eq_true] at pn
    rw [ht] at hht
    have h : ¬d > 20 := by omega
    rw [safeEval, stdEvalT]
    rw [stdEvalT] at htr
    simp only [h, if_false]
    rcases hel : stdEvalT l with ⟨lr, ltr⟩
    rcases her : stdEvalT r with ⟨rr, rtr⟩
    rw [hel, her] at htr
    have hhl : d + 1 + ht l ≤ 21 := by
      have := le_max_left (ht l) (ht r); omega
    have hhr : d + 1 + ht r ≤ 21 := by
      have := le_max_right (ht l) (ht r); omega
    cases lr with
    | error m =>
      have hal := ihl (d + 1) pn.1 hhl (by rw [hel]; exact fun p hp => htr p hp)
      rw [hel] at hal
      simp only at hal
      rw [hal]
    | ok lv =>
      cases rr with
      | error m =>
        have hal := ihl (d + 1) pn.1 hhl
          (by rw [hel]; exact fun p hp => htr p (List.mem_append_left _ hp))
        have har := ihr (d + 1) pn.2 hhr
          (by rw [her]; exact fun p hp => htr p (List.mem_append_right _ hp))
        rw [hel] at hal
        rw [her] at har
        simp only at hal har
        rw [hal, har]
      | ok rv =>
        by_cases hp2 : op = BinT.pow
        · subst hp2
          have htr2 : ∀ p ∈ ltr ++ rtr ++ [(lv, rv)],
              |p.1.toRat| ≤ 1000000 ∧ |p.2.toRat| ≤ 12 := fun p hp => htr p hp
          have hal := ihl (d + 1) pn.1 hhl
            (by
              rw [hel]
              exact fun p hp =>
                htr2 p (List.mem_append_left _ (List.mem_append_left _ hp)))
          have har := ihr (d + 1) pn.2 hhr
            (by
              rw [her]
              exact fun p hp =>
                htr2 p (List.mem_append_left _ (List.mem_append_right _ hp)))
          rw [hel] at hal
          rw [her] at har
          simp only at hal har
          rw [hal, har]
          have hpair := htr2 (lv, rv)
            (List.mem_append_right _ (List.mem_singleton.mpr rfl))
          have hgd : ¬(1000000 < |lv.toRat| ∨ 12 < |rv.toRat|) := by
            push_neg
            exact hpair
          simp [hgd]
        · have htr2 : ∀ p ∈ ltr ++ rtr,
              |p.1.toRat| ≤ 1000000 ∧ |p.2.toRat| ≤ 12 := by
            intro p hp
            apply htr p
            simp only [if_neg hp2]
            exact hp
          have hal := ihl (d + 1) pn.1 hhl
            (by rw [hel]; exact fun p hp => htr2 p (List.mem_append_left _ hp))
          have har := ihr (d + 1) pn.2 hhr
            (by rw [her]; exact fun p hp => htr2 p (List.mem_append_right _ hp))
          rw [hel] at hal
          rw [her] at har
          simp only at hal har
          rw [hal, har]
          simp [hp2]
  | name s => intro d pn hht htr; exact Bool.noConfusion pn
  | call => intro d pn hht htr; exact Bool.noConfusion pn
  | attrAccess => intro d pn hht htr; exact Bool.noConfusion pn
  | other => intro d pn hht htr; exact Bool.noConfusion pn

/-- The `-0.0` normalisation is the identity in the rational model. -/
theorem normZero_eq (v : PyVal) : normZero v = v := by
  cases v with
  | vfloat q =>
    by_cases h : q = 0
    · simp [normZero, h]
    · simp [normZero, h]
  | vint i => rfl
  | vbool b => rfl

/-- Counterexample for C5: Python treats booleans as ints, so the boolean
literal `True` — a non-numeric literal (`ast.parse("True", mode="eval")`
yields `Expression(Constant(True))`) — passes the
`isinstance(node.value, (int, float))` check and `calculate("True")` returns
`{"result": true}` rather than an error result. -/
theorem claim_C5_cex :
    calcOnAst (.const (.cbool true)) = Json.obj [("result", .bool true)] ∧
    ∀ m : String, calcOnAst (.const (.cbool true)) ≠ errJson m := by
  refine ⟨rfl, fun m h => ?_⟩
  rw [show calcOnAst (.const (.cbool true)) =
      Json.obj [("result", .bool true)] from rfl] at h
  simp [errJson] at h

/-- C5 (amended): `calculate` is total — every evaluation outcome is either
`{"result": v}` or `{"error": m}` — and, at the AST level (the parse step is
upstream of these nodes): (a) every tree containing an identifier, a call, an
attribute access, or a non-boolean non-numeric literal produces an error
result; (b) every tree built from int/float literals, unary sign and the six
operators, fitting the depth guard, whose reached powers satisfy the exponent
guard and whose value is defined in exact rational arithmetic, produces
`{"result": v}` with `v` that exact value. (Booleans are excluded from (a):
Python accepts them as numbers.) -/
theorem claim_C5 :
    (∀ body : Ast, containsBad body = true → ∃ m, calcOnAst body = errJson m) ∧
    (∀ (body : Ast) (v : PyVal), pureNum body = true → ht body ≤ 20 →
      (stdEvalT body).1 = .ok v →
      (∀ p ∈ (stdEvalT body).2, |p.1.toRat| ≤ 1000000 ∧ |p.2.toRat| ≤ 12) →
      calcOnAst body = resJson v) := by
  constructor
  · intro body hb
    obtain ⟨m, hm⟩ := containsBad_err (Ast.expression body) 0 hb
    exact ⟨m, by unfold calcOnAst; rw [hm]⟩
  · intro body v pn hht hok htr
    have h := stdEval_agree (Ast.expression body) 0 pn
      (by rw [ht]; omega) htr
    have hstd : (stdEvalT (Ast.expression body)).1 = .ok v := hok
    rw [hstd] at h
    unfold calcOnAst
    rw [h]
    simp [normZero_eq]

/-- Witness for C5 (amended): part (b) at `(2+3)*4` (value 20) and part (a)
at the identifier `x`. -/
theorem claim_C5_witness :
    calcOnAst (.binOp .mult (.binOp .add (.const (.cint 2)) (.const (.cint 3)))
        (.const (.cint 4))) = resJson (.vint 20) ∧
    (∃ m, calcOnAst (.name "x") = errJson m) :=
  ⟨claim_C5.2 _ (.vint 20) (by decide) (by decide) (by decide) (by decide),
   claim_C5.1 _ (by decide)⟩

/-- C6: whenever evaluation reaches an exponentiation whose evaluated base
has magnitude above 1e6 or whose evaluated exponent has magnitude above 12,
`calculate` returns an error result, never the computed power. -/
theorem claim_C6 : ∀ (body : Ast) (lv rv : PyVal),
    (lv, rv) ∈ (safeEvalT (Ast.expression body) 0).2 →
    1000000 < |lv.toRat| ∨ 12 < |rv.toRat| →
    ∃ m, calcOnAst body = errJson m := by
  intro body lv rv hm hg
  obtain ⟨m, hmm⟩ := trace_guard_err (Ast.expression body) 0 lv rv hm hg
  rw [safeEvalT_fst] at hmm
  exact ⟨m, by unfold calcOnAst; rw [hmm]⟩

/-- Witness for C6 at `10000000 ** 2`: the power is reached with base
10000000 > 1e6 and the result is an error. -/
theorem claim_C6_witness :
    (PyVal.vint 10000000, PyVal.vint 2) ∈
      (safeEvalT (Ast.expression
        (.binOp .pow (.const (.cint 10000000)) (.const (.cint 2)))) 0).2 ∧
    ∃ m, calcOnAst
        (.binOp .pow (.const (.cint 10000000)) (.const (.cint 2))) =
      errJson m :=
  ⟨by decide,
   claim_C6 (.binOp .pow (.const (.cint 10000000)) (.const (.cint 2)))
     (PyVal.vint 10000000) (PyVal.vint 2) (by decide) (by decide)⟩

end VoiceAgent
